import Mathlib

/-!
Verification of the request-orchestration core of the `aioscraper` repository.

Each definition is a shallow embedding of a function or class of the Python
source (file and symbol named in its doc comment).  Machine floats are
modelled as rationals, Python `None` as `Option.none`, and Python dicts as
association lists.  A few pieces of the current code base are present in the
repository only through their tests and call sites; those definitions are
explicitly marked `Modelled from the spec:` and follow the specification
text (cross-checked against the repository's own test suite).
-/

/-- Error taxonomy relevant to the embedded fragment
(`src/aioscraper/exceptions.py`). -/
inductive ScrError where
  | invalidRequestData (msg : String)
  deriving DecidableEq, Repr

/-- `Request` from `src/aioscraper/types/session.py` restricted to the fields
the verified claims read.  `data`, `json_data` and `files` only matter through
their presence, so they are modelled as `Option String`.  The `delay` field is
used by `core/request_manager.py` and by the retry tests but the copy of
`types/session.py` under `src/` predates it; it is Modelled from the spec:
"scheduled delay (seconds, optional)" (spec section 3), an optional float.
`state` is the opaque per-request mapping (string keys to integer values are
the only use the verified claims make of it).  `callback` and `errback` are
modelled by their presence. -/
structure Request where
  url : String
  method : String := "GET"
  data : Option String := none
  json_data : Option String := none
  files : Option String := none
  priority : Int := 0
  delay : Option Rat := none
  raise_for_status : Bool := true
  callback : Bool := false
  errback : Bool := false
  state : List (String × Nat) := []
  deriving DecidableEq, Repr

/-- Lookup in the per-request `state` dict with a default, Python
`dict.get(key, 0)`. -/
def stateGet (st : List (String × Nat)) (key : String) : Nat :=
  match st.find? (fun p => p.fst = key) with
  | some p => p.snd
  | none => 0

/-- Assignment `state[key] = v` on the per-request dict. -/
def stateSet (st : List (String × Nat)) (key : String) (v : Nat) :
    List (String × Nat) :=
  (key, v) :: st.filter (fun p => p.fst ≠ key)

/-- `Request.__post_init__` (`src/aioscraper/types/session.py` lines 92-97):
construction fails with `InvalidRequestData` when `json_data` is combined
with `data` or with `files`. -/
def Request.postInit (r : Request) : Except ScrError Request :=
  if r.json_data.isSome && r.data.isSome then
    .error (.invalidRequestData "Cannot send both data and json_data")
  else if r.json_data.isSome && r.files.isSome then
    .error (.invalidRequestData "Cannot send both files and json_data")
  else
    .ok r

/-- Python truthiness of the optional `delay` field as tested by
`if request.delay:` in `core/request_manager.py` line 38: `None` and `0.0`
are falsy, every other float is truthy. -/
def delayTruthy : Option Rat → Bool
  | none => false
  | some d => d ≠ 0

/-- Prioritised request envelope.  The class itself is absent from the copy of
`types/session.py` under `src/` (only its callers and tests are present), so
the tie-break is Modelled from the spec: "(priority, request) ordered by
ascending priority ... Ties broken by insertion order" (spec section 3).
`priority` carries the envelope key (the request priority for ready-queue
entries, the due time for delayed-heap entries, both rationals) and `seq` is
the insertion counter realising the insertion-order tie-break. -/
structure PRequest where
  priority : Rat
  seq : Nat
  request : Request
  deriving DecidableEq, Repr

/-- Envelope order: ascending key, ties broken by insertion order. -/
def lexLe (a b : PRequest) : Prop :=
  a.priority < b.priority ∨ (a.priority = b.priority ∧ a.seq ≤ b.seq)

instance : DecidableRel lexLe := fun a b =>
  inferInstanceAs
    (Decidable (a.priority < b.priority ∨ (a.priority = b.priority ∧ a.seq ≤ b.seq)))

/-- State of the two-queue scheduler of `core/request_manager.py`: the ready
priority queue (`asyncio.PriorityQueue`, modelled as the multiset of queued
envelopes, retrieval by `popMin`), the delayed heap (`heapq` list, same
model) and the insertion counter issuing envelope sequence numbers. -/
structure SchedulerState where
  ready : List PRequest := []
  heap : List PRequest := []
  nextSeq : Nat := 0
  deriving DecidableEq, Repr

/-- The `sender` closure of `_get_request_sender`
(`src/aioscraper/core/request_manager.py` lines 27-45): validate the
body/json/files exclusivity, then push `(now + delay, request)` onto the
delayed heap when `delay` is truthy, else put `(request.priority, request)`
onto the ready queue; return the same request. -/
def sender (now : Rat) (st : SchedulerState) (r : Request) :
    Except ScrError (SchedulerState × Request) :=
  if r.json_data.isSome && r.data.isSome then
    .error (.invalidRequestData "Cannot send both data and json_data")
  else if r.json_data.isSome && r.files.isSome then
    .error (.invalidRequestData "Cannot send both files and json_data")
  else if delayTruthy r.delay then
    .ok ({ st with
            heap := st.heap ++ [⟨now + r.delay.getD 0, st.nextSeq, r⟩],
            nextSeq := st.nextSeq + 1 }, r)
  else
    .ok ({ st with
            ready := st.ready ++ [⟨(r.priority : Rat), st.nextSeq, r⟩],
            nextSeq := st.nextSeq + 1 }, r)

/-- Retrieval from a priority queue / heap: the least envelope under `lexLe`
(leftmost among equals) together with the remaining envelopes.  This is the
behaviour of `asyncio.PriorityQueue.get` and `heapq.heappop`, which return a
smallest entry. -/
def popMin : List PRequest → Option (PRequest × List PRequest)
  | [] => none
  | e :: es =>
    match popMin es with
    | none => some (e, [])
    | some (m, rest) =>
      if lexLe e m then some (e, es) else some (m, e :: rest)

/-- Repeatedly retrieve from the queue (fuelled helper). -/
def popAllGo : Nat → List PRequest → List PRequest
  | 0, _ => []
  | n + 1, l =>
    match popMin l with
    | none => []
    | some (m, rest) => m :: popAllGo n rest

/-- The sequence in which the dispatch loop dequeues the current content of
the ready queue when no further envelopes arrive. -/
def popAllReady (l : List PRequest) : List PRequest := popAllGo l.length l

/-- The heap-drain step sets `pr.request.delay = None` and re-puts the
envelope unchanged (`core/request_manager.py` lines 228-230). -/
def dropDelay (e : PRequest) : PRequest :=
  { e with request := { e.request with delay := none } }

/-- Fuelled loop body of `RequestManager._pop_due_delayed`. -/
def popDueDelayedGo (now : Rat) : Nat → SchedulerState → SchedulerState
  | 0, st => st
  | n + 1, st =>
    match popMin st.heap with
    | none => st
    | some (m, rest) =>
      if m.priority ≤ now then
        popDueDelayedGo now n
          { st with ready := st.ready ++ [dropDelay m], heap := rest }
      else st

/-- `RequestManager._pop_due_delayed` (`src/aioscraper/core/request_manager.py`
lines 224-230): while the delayed heap's top is due (`priority <= now`), pop
it, clear the request's `delay` and put the envelope into the ready queue. -/
def popDueDelayed (now : Rat) (st : SchedulerState) : SchedulerState :=
  popDueDelayedGo now st.heap.length st

/-- Reserved request-state key of the retry middleware
(`src/aioscraper/middlewares/retry.py` line 8). -/
def RETRY_STATE_KEY : String := "_aioscraper_retry_attempts"

/-- The information about a raised exception that the retry machinery
inspects: whether it is an `HTTPException`, its status code, and the runtime
type (as an abstract identifier) used by the `isinstance` check. -/
structure ExcInfo where
  isHttp : Bool
  status_code : Nat := 0
  typeId : Nat
  deriving DecidableEq, Repr

/-- `RetryMiddleware._should_retry` (`src/aioscraper/middlewares/retry.py`
lines 40-47): retry when the status-set is non-empty and the exception is an
`HTTPException` whose status is in it, or when the exception-type tuple is
non-empty and the exception is an instance of one of its members. -/
def shouldRetry (statuses : List Nat) (exception_types : List Nat)
    (exc : ExcInfo) : Bool :=
  (decide (statuses ≠ []) && exc.isHttp && statuses.contains exc.status_code)
  || (decide (exception_types ≠ []) && exception_types.contains exc.typeId)

/-- `RetryMiddleware` state after `__init__`
(`src/aioscraper/middlewares/retry.py` lines 16-25); `attempts` is the raw
config value, clamped by `max(0, ...)` below as in the constructor. -/
structure RetryMiddleware where
  enabled : Bool := false
  attempts : Int := 3
  statuses : List Nat := [500, 502, 503, 504, 522, 524, 408, 429]
  exception_types : List Nat := [0]
  stop_processing : Bool := true
  deriving DecidableEq, Repr

/-- `self._attempts = max(0, config.attempts)`. -/
def RetryMiddleware.attemptsClamped (m : RetryMiddleware) : Nat :=
  (max 0 m.attempts).toNat

/-- `RetryMiddleware.__call__` (`src/aioscraper/middlewares/retry.py`
lines 27-39) restricted to its effect on the request and on whether it
re-submits: bail out if disabled or the failure does not match; read the
attempt counter from the request state; return if it reached `attempts`;
otherwise store the incremented counter and re-submit the request.  The
boolean result records whether `send_request` was called. -/
def RetryMiddleware.call (m : RetryMiddleware) (r : Request) (exc : ExcInfo) :
    Request × Bool :=
  if !m.enabled || !shouldRetry m.statuses m.exception_types exc then (r, false)
  else
    let attempts_used := stateGet r.state RETRY_STATE_KEY
    if m.attemptsClamped ≤ attempts_used then (r, false)
    else
      ({ r with state := stateSet r.state RETRY_STATE_KEY (attempts_used + 1) },
       true)

/-- Route a whole sequence of failures of one request through the retry
middleware, threading the request state; returns the final request and the
number of re-submissions performed. -/
def runRetries (m : RetryMiddleware) : Request → List ExcInfo → Request × Nat
  | r, [] => (r, 0)
  | r, e :: es =>
    let step := m.call r e
    let rest := runRetries m step.1 es
    (rest.1, (if step.2 then 1 else 0) + rest.2)

/-- `BackoffStrategy` (`src/aioscraper/config/models.py` lines 25-38). -/
inductive BackoffStrategy where
  | constant
  | linear
  | exponential
  | exponential_jitter
  deriving DecidableEq, Repr

/-- `RequestRetryConfig` (`src/aioscraper/config/models.py` lines 42-65)
restricted to the fields the backoff computation reads. -/
structure RequestRetryConfig where
  enabled : Bool := false
  attempts : Int := 3
  backoff : BackoffStrategy := .exponential_jitter
  base_delay : Rat := 1/2
  max_delay : Rat := 30
  statuses : List Nat := [500, 502, 503, 504, 522, 524, 408, 429]
  exception_types : List Nat := [0]
  stop_processing : Bool := true
  deriving DecidableEq, Repr

/-- `RequestRetryConfig.delay_factory` (`src/aioscraper/config/models.py`
lines 67-81).  The single call `random.uniform(0, delay / 2)` of the jitter
branch is modelled by the parameter `u` (the sampled value). -/
def RequestRetryConfig.delay_factory (cfg : RequestRetryConfig) (u : Rat)
    (attempt : Nat) : Rat :=
  match cfg.backoff with
  | .linear => cfg.base_delay * attempt
  | .exponential => min cfg.max_delay (cfg.base_delay * 2 ^ attempt)
  | .exponential_jitter =>
    let delay := cfg.base_delay * 2 ^ attempt
    min cfg.max_delay (delay / 2 + u)
  | .constant => cfg.base_delay

/-- Modelled from the spec: the current retry middleware body that applies
`delay_factory` is not under `src/` (the `middlewares/retry.py` checked in
there is a stale revision that reads a `config.delay` field which
`config/models.py` no longer has; the current body is present only through
`tests/middleware/test_retry_middleware.py`).  Following spec section 4.E and
those tests: after the counter check, the delay is the parsed `Retry-After`
value when the exception carries one, else `delay_factory(attempt)` with
`attempt` the 1-based number of this retry; the middleware stores the
incremented counter, sets the request's scheduled `delay` and re-submits. -/
def retryMiddlewareCall (cfg : RequestRetryConfig) (r : Request)
    (exc : ExcInfo) (retryAfter : Option Rat) (u : Rat) : Request × Bool :=
  if !cfg.enabled || !shouldRetry cfg.statuses cfg.exception_types exc then
    (r, false)
  else
    let attempts_used := stateGet r.state RETRY_STATE_KEY
    if (max 0 cfg.attempts).toNat ≤ attempts_used then (r, false)
    else
      let attempt := attempts_used + 1
      let delay :=
        match retryAfter with
        | some ra => ra
        | none => cfg.delay_factory u attempt
      ({ r with
          state := stateSet r.state RETRY_STATE_KEY attempt,
          delay := some delay },
       true)

/-- Adaptive rate-limit settings (spec section 4.D).  The corresponding
`AdaptiveRateLimitConfig` dataclass is not under `src/` (only its loader and
tests are), so the field set is Modelled from the spec: min/max interval,
increase factor, decrease step, success threshold, EWMA alpha,
respect-retry-after flag and the failure triggers. -/
structure AdaptiveRateLimitConfig where
  min_interval : Rat
  max_interval : Rat
  increase_factor : Rat
  decrease_step : Rat
  success_threshold : Nat
  ewma_alpha : Rat := 3/10
  respect_retry_after : Bool := false
  trigger_statuses : List Nat := [429, 503]
  trigger_exceptions : List Nat := []
  deriving DecidableEq, Repr

/-- Per-group adaptive metrics.  Modelled from the spec: `AdaptiveMetrics` is
not under `src/` (only `tests/test_adaptive_rate_limiter.py` exercises it);
spec section 3 gives the EWMA recurrence and the consecutive counters. -/
structure AdaptiveMetrics where
  ewma_latency : Option Rat := none
  success_count : Nat := 0
  failure_count : Nat := 0
  total_requests : Nat := 0
  deriving DecidableEq, Repr

/-- `record_success`: first sample sets the EWMA directly, later samples use
`alpha * sample + (1 - alpha) * ewma`; success count increments, failure
count resets. -/
def AdaptiveMetrics.record_success (m : AdaptiveMetrics) (alpha latency : Rat) :
    AdaptiveMetrics :=
  { ewma_latency :=
      some (match m.ewma_latency with
            | none => latency
            | some e => alpha * latency + (1 - alpha) * e),
    success_count := m.success_count + 1,
    failure_count := 0,
    total_requests := m.total_requests + 1 }

/-- `record_failure`: failure count increments, success count resets. -/
def AdaptiveMetrics.record_failure (m : AdaptiveMetrics) : AdaptiveMetrics :=
  { m with
      failure_count := m.failure_count + 1,
      success_count := 0,
      total_requests := m.total_requests + 1 }

/-- `RequestOutcome` reported by the manager to the adaptive limiter.
Modelled from the spec (section 4.D) and the constructor calls in
`tests/test_adaptive_rate_limiter.py`. -/
structure RequestOutcome where
  group_key : String
  latency : Rat
  retry_after : Option Rat := none
  status_code : Option Nat := none
  exception_type : Option Nat := none
  deriving DecidableEq, Repr

/-- Failure-trigger match: `status_code in trigger_statuses` or
`exc_type in trigger_exceptions` (spec section 4.D rule 2). -/
def matchesTrigger (cfg : AdaptiveRateLimitConfig) (o : RequestOutcome) :
    Bool :=
  (match o.status_code with
   | some s => cfg.trigger_statuses.contains s
   | none => false)
  || (match o.exception_type with
      | some t => cfg.trigger_exceptions.contains t
      | none => false)

/-- Per-group metrics map lookup (fresh metrics when absent, like
`get_or_create_metrics`). -/
def metricsGet (st : List (String × AdaptiveMetrics)) (key : String) :
    AdaptiveMetrics :=
  match st.find? (fun p => p.fst = key) with
  | some p => p.snd
  | none => {}

/-- Per-group metrics map update. -/
def metricsSet (st : List (String × AdaptiveMetrics)) (key : String)
    (m : AdaptiveMetrics) : List (String × AdaptiveMetrics) :=
  (key, m) :: st.filter (fun p => p.fst ≠ key)

/-- Modelled from the spec: `AdaptiveStrategy.calculate_interval` is not
under `src/` (only `tests/test_adaptive_rate_limiter.py` exercises it).
Following spec section 4.D: metrics are recorded before the decision; rule 1,
when `respect_retry_after` and the outcome carries `retry_after`, the next
interval is `min(max_interval, retry_after)`; rule 2, on a trigger-matching
failure it is `min(max_interval, current * increase_factor)` (the
consecutive-success counter was reset by `record_failure`); rule 3, on a
success once the consecutive-success count has reached `success_threshold`
it is `max(min_interval, current - decrease_step)`, otherwise unchanged.
One deliberate deviation from the spec's words: the spec says the counter
resets when the threshold decrease fires, but the repository's own test
(`test_additive_decrease_on_success`, where a fourth consecutive success
keeps decreasing the interval) shows it is not reset, so this model follows
the tests there. -/
def calculateInterval (cfg : AdaptiveRateLimitConfig)
    (st : List (String × AdaptiveMetrics)) (key : String) (current : Rat)
    (o : RequestOutcome) : Rat × List (String × AdaptiveMetrics) :=
  let failed := matchesTrigger cfg o
  let m := metricsGet st key
  let m' := if failed then m.record_failure
            else m.record_success cfg.ewma_alpha o.latency
  let st' := metricsSet st key m'
  let next :=
    if cfg.respect_retry_after && o.retry_after.isSome then
      min cfg.max_interval (o.retry_after.getD 0)
    else if failed then
      min cfg.max_interval (current * cfg.increase_factor)
    else if cfg.success_threshold ≤ m'.success_count then
      max cfg.min_interval (current - cfg.decrease_step)
    else
      current
  (next, st')

/-- Behaviour of one middleware invocation as seen by the surrounding
`try/except` blocks of `core/request_manager.py`: normal return,
`StopRequestProcessing`, `StopMiddlewareProcessing`, or any other raised
`Exception` (identified abstractly). -/
inductive MwSignal where
  | ok
  | stopRequest
  | stopMiddleware
  | raiseExc (excId : Nat)
  deriving DecidableEq, Repr

/-- Result of running one inner/response/exception middleware chain. -/
inductive ChainOutcome where
  | completed
  | aborted
  | raised (excId : Nat)
  deriving DecidableEq, Repr

/-- The shared chain shape of the inner, response and exception middleware
loops in `core/request_manager.py` (`_send_request`, `_handle_exception`):
`StopRequestProcessing` returns from the enclosing function,
`StopMiddlewareProcessing` breaks out of the chain and processing continues,
any other exception propagates out of the loop. -/
def runChain : List MwSignal → ChainOutcome
  | [] => .completed
  | .ok :: ms => runChain ms
  | .stopRequest :: _ => .aborted
  | .stopMiddleware :: _ => .completed
  | .raiseExc e :: _ => .raised e

/-- `Response` from `src/aioscraper/types/session.py` restricted to the
fields `_send_request` reads; `body` is the decoded text of the payload
(`await response.text(errors="replace")`). -/
structure Response where
  url : String
  method : String
  status : Nat
  headers : List (String × String)
  body : String
  deriving DecidableEq, Repr

/-- `Response.ok` (`src/aioscraper/types/session.py` lines 147-150):
`400 > self._status`. -/
def Response.ok (resp : Response) : Bool := decide (resp.status < 400)

/-- `HTTPException` as constructed in `RequestManager._send_request`
(`src/aioscraper/core/request_manager.py` lines 139-148): final URL, method,
headers, status code and the decoded body text. -/
structure HTTPException where
  url : String
  method : String
  status_code : Nat
  headers : List (String × String)
  message : String
  deriving DecidableEq, Repr

/-- An exception value routed to the error path: either the constructed
`HTTPException` or some other exception (abstract identifier). -/
inductive ExcVal where
  | http (e : HTTPException)
  | other (excId : Nat)
  deriving DecidableEq, Repr

/-- Result of `RequestManager._handle_exception`. -/
inductive ErrorPathResult where
  | aborted
  | errback (exc : ExcVal)
  | logged (exc : ExcVal)
  | raisedFurther (excId : Nat)
  deriving DecidableEq, Repr

/-- `RequestManager._handle_exception`
(`src/aioscraper/core/request_manager.py` lines 152-179): run the exception
middlewares (chain semantics as above; a `StopRequestProcessing` aborts all
further processing), then invoke the errback when present, else log the
failure with method, url and exception. -/
def handleException (excMws : List MwSignal) (errback : Bool) (exc : ExcVal) :
    ErrorPathResult :=
  match runChain excMws with
  | .aborted => .aborted
  | .raised e => .raisedFurther e
  | .completed => if errback then .errback exc else .logged exc

/-- What happened to one request inside the worker after the transport call
returned a response. -/
inductive WorkerOutcome where
  | callbackInvoked
  | noCallback
  | discarded
  | errorPath (exc : ExcVal) (result : ErrorPathResult)
  deriving DecidableEq, Repr

/-- `RequestManager._send_request` from the point where the transport call
has completed (`src/aioscraper/core/request_manager.py` lines 109-150): run
the response middlewares; if `response.ok` or `raise_for_status` is unset,
invoke the callback when present; else construct the `HTTPException` from
the response and route it through `_handle_exception`.  A non-control
exception raised by a response middleware is caught by the enclosing
`except Exception` and routed through `_handle_exception` as well. -/
def sendRequestAfterTransport (respMws excMws : List MwSignal) (r : Request)
    (resp : Response) : WorkerOutcome :=
  match runChain respMws with
  | .aborted => .discarded
  | .raised e => .errorPath (.other e) (handleException excMws r.errback (.other e))
  | .completed =>
    if resp.ok || !r.raise_for_status then
      if r.callback then .callbackInvoked else .noCallback
    else
      let exc : ExcVal :=
        .http ⟨r.url, resp.method, resp.status, resp.headers, resp.body⟩
      .errorPath exc (handleException excMws r.errback exc)

/-- Result of `RequestManager._process_request` for one dequeued envelope. -/
structure ProcessRequestResult where
  executed : Nat
  rateLimiterCalled : Bool
  escaped : Option Nat
  deriving DecidableEq, Repr

/-- Loop of `RequestManager._process_request`
(`src/aioscraper/core/request_manager.py` lines 213-222): every outer
middleware runs; `StopMiddlewareProcessing` and `StopRequestProcessing` are
logged and ignored, any other `Exception` is logged and swallowed; after the
loop the request is handed to the rate limiter.  `executed` counts the
middlewares that were invoked and `escaped` records an exception propagating
out of `_process_request` (there is none: every branch is caught). -/
def processRequestGo : List MwSignal → Nat → ProcessRequestResult
  | [], n => ⟨n, true, none⟩
  | .ok :: ms, n => processRequestGo ms (n + 1)
  | .stopRequest :: ms, n => processRequestGo ms (n + 1)
  | .stopMiddleware :: ms, n => processRequestGo ms (n + 1)
  | .raiseExc _ :: ms, n => processRequestGo ms (n + 1)

/-- `RequestManager._process_request` applied to a request whose outer
middlewares behave as given. -/
def processRequest (outerMws : List MwSignal) : ProcessRequestResult :=
  processRequestGo outerMws 0

/-- A middleware registered in a stage bucket: its priority and the global
insertion index assigned when it was added (the handler itself is irrelevant
to the ordering claims). -/
structure RegisteredMiddleware where
  priority : Int
  seq : Nat
  deriving DecidableEq, Repr

/-- The sort key used by `bucket.sort(key=lambda item: item[0])` in
`MiddlewareHolder.add`. -/
def mwPriLe (a b : RegisteredMiddleware) : Prop := a.priority ≤ b.priority

instance : DecidableRel mwPriLe := fun a b => by
  unfold mwPriLe; infer_instance

instance : IsTotal RegisteredMiddleware mwPriLe :=
  ⟨fun a b => Int.le_total a.priority b.priority⟩

instance : IsTrans RegisteredMiddleware mwPriLe :=
  ⟨fun _ _ _ hab hbc => le_trans hab hbc⟩

/-- One stage bucket of `MiddlewareHolder`
(`src/aioscraper/holders/middleware.py`), together with the counter issuing
insertion indices. -/
structure MiddlewareBucket where
  items : List RegisteredMiddleware := []
  nextSeq : Nat := 0
  deriving DecidableEq, Repr

/-- `MiddlewareHolder.add` (`src/aioscraper/holders/middleware.py`
lines 25-32): append `count` middlewares sharing `priority` to the bucket,
then `bucket.sort(key=lambda item: item[0])`.  Python's `list.sort` is
stable; a stable sort is extensionally determined by the key order and the
input order, so it is modelled by insertion sort (`List.insertionSort`
places each element before the strictly-greater ones and before none of the
equal ones that originally preceded it). -/
def MiddlewareBucket.add (b : MiddlewareBucket) (priority : Int)
    (count : Nat) : MiddlewareBucket :=
  { items :=
      List.insertionSort mwPriLe
        (b.items ++ (List.range count).map
          (fun i => ⟨priority, b.nextSeq + i⟩)),
    nextSeq := b.nextSeq + count }

/-- A sequence of `add` calls (each with a priority and a number of
middlewares) applied to an initially empty bucket. -/
def runAdds (ops : List (Int × Nat)) : MiddlewareBucket :=
  ops.foldl (fun b op => b.add op.fst op.snd) {}

/-- Strict lexicographic order on registered middlewares: ascending
priority, insertion order on ties. -/
def mwLex (a b : RegisteredMiddleware) : Prop :=
  a.priority < b.priority ∨ (a.priority = b.priority ∧ a.seq < b.seq)

/-- State of `RateLimiterManager`'s group map
(`src/aioscraper/core/rate_limiter.py`): the map from group key to the group
object, with object identity modelled by a fresh numeric id per created
group. -/
structure GroupsState where
  groups : List (String × Nat) := []
  nextId : Nat := 0
  deriving DecidableEq, Repr

/-- `RateLimiterManager._handle_with_group`
(`src/aioscraper/core/rate_limiter.py` lines 153-170) restricted to its map
mutation: a group is created (with a fresh identity) only when the map has
no entry for the key; an existing entry is reused untouched. -/
def handleWithGroup (st : GroupsState) (key : String) : GroupsState :=
  match st.groups.find? (fun p => p.fst = key) with
  | some _ => st
  | none => ⟨(key, st.nextId) :: st.groups, st.nextId + 1⟩

/-- `RateLimiterManager._on_group_finished`
(`src/aioscraper/core/rate_limiter.py` lines 185-189): the terminating
worker's callback removes the map entry only when the entry still points at
that very group object (`current is group`). -/
def onGroupFinished (st : GroupsState) (key : String) (g : Nat) :
    GroupsState :=
  match st.groups.find? (fun p => p.fst = key) with
  | some p =>
    if p.snd = g then
      { st with groups := st.groups.filter (fun q => q.fst ≠ key) }
    else st
  | none => st

/-- An event touching the group map: a request routed to a key, or a group
worker for key/identity terminating. -/
inductive GroupOp where
  | handle (key : String)
  | finished (key : String) (g : Nat)
  deriving DecidableEq, Repr

/-- Apply one group-map event. -/
def groupStep (st : GroupsState) : GroupOp → GroupsState
  | .handle key => handleWithGroup st key
  | .finished key g => onGroupFinished st key g

/-- Run a trace of group-map events from the empty map. -/
def runGroupOps (ops : List GroupOp) : GroupsState :=
  ops.foldl groupStep {}

/-- Cached-body state of one `Response`
(`src/aioscraper/types/session.py`): `_content` starts as `None`; `calls`
counts invocations of the underlying `_read` callable. -/
structure RespState where
  content : Option String := none
  calls : Nat := 0
  deriving DecidableEq, Repr

/-- `Response.read` (`src/aioscraper/types/session.py` lines 155-160): invoke
the underlying `_read` only when `_content is None`, cache the result, and
return the cache.  The underlying callable is modelled by `u`, mapping the
invocation index to the bytes it returns. -/
def readStep (u : Nat → String) (s : RespState) : String × RespState :=
  match s.content with
  | some c => (c, s)
  | none => (u s.calls, ⟨some (u s.calls), s.calls + 1⟩)

/-- `Response.text` (`src/aioscraper/types/session.py` lines 162-168): read
(through the cache) then decode; the decode step (charset resolution and
`bytes.decode`) is modelled by the function `decode`. -/
def textStep (u : Nat → String) (decode : String → String) (s : RespState) :
    String × RespState :=
  let rd := readStep u s
  (decode rd.1, rd.2)

/-- `Response.json` (`src/aioscraper/types/session.py` lines 170-181): read
(through the cache) then strip/decode/parse, modelled by the function
`parse`. -/
def jsonStep (u : Nat → String) (parse : String → String) (s : RespState) :
    String × RespState :=
  let rd := readStep u s
  (parse rd.1, rd.2)

/-- One public body accessor of `Response`. -/
inductive RespOp where
  | read
  | text
  | json
  deriving DecidableEq, Repr

/-- Run a sequence of `read`/`text`/`json` calls against one response,
collecting each call's return value. -/
def runRespOps (u : Nat → String) (decode parse : String → String) :
    RespState → List RespOp → RespState × List String
  | s, [] => (s, [])
  | s, op :: ops =>
    let step :=
      match op with
      | .read => readStep u s
      | .text => textStep u decode s
      | .json => jsonStep u parse s
    let rest := runRespOps u decode parse step.2 ops
    (rest.1, step.1 :: rest.2)

/-- The value each accessor is expected to return once the first read's
result is fixed. -/
def expectedResp (u : Nat → String) (decode parse : String → String) :
    RespOp → String
  | .read => u 0
  | .text => decode (u 0)
  | .json => parse (u 0)

/-- Concrete delayed request (priority 0, delay 1 second) used to examine the
ordering of drained envelopes. -/
def c1ReqA : Request := { url := "a", priority := 0, delay := some 1 }

/-- Concrete undelayed request (priority 5). -/
def c1ReqB : Request := { url := "b", priority := 5 }

/-- Scheduler state after submitting `c1ReqA` and `c1ReqB` at monotonic time
100 and draining the delayed heap at time 101 (when `c1ReqA` is due). -/
def c1State : SchedulerState :=
  match sender 100 {} c1ReqA with
  | .ok (st1, _) =>
    match sender 100 st1 c1ReqB with
    | .ok (st2, _) => popDueDelayed 101 st2
    | .error _ => {}
  | .error _ => {}

/-- Concrete adaptive configuration mirroring the values of the repository's
adaptive-strategy tests: threshold 3, step 0.01, factor 2, bounds
[0.001, 5], Retry-After respected, 429/503 triggering. -/
def c5Cfg : AdaptiveRateLimitConfig :=
  { min_interval := 1/1000, max_interval := 5, increase_factor := 2,
    decrease_step := 1/100, success_threshold := 3,
    respect_retry_after := true, trigger_statuses := [429, 503] }

/-- A successful outcome for group `"t"`. -/
def c5Succ : RequestOutcome := { group_key := "t", latency := 1/2 }

/-- A trigger-matching failure outcome that carries `Retry-After: 3.5`. -/
def c5Fail : RequestOutcome :=
  { group_key := "t", latency := 1, retry_after := some (7/2),
    status_code := some 429 }

/-- Metrics state after one consecutive success. -/
def c5St1 : List (String × AdaptiveMetrics) :=
  (calculateInterval c5Cfg [] "t" 1 c5Succ).2

/-- Metrics state after two consecutive successes. -/
def c5St2 : List (String × AdaptiveMetrics) :=
  (calculateInterval c5Cfg c5St1 "t" 1 c5Succ).2

/-- Metrics state after three consecutive successes (the third one fires the
threshold decrease). -/
def c5St3 : List (String × AdaptiveMetrics) :=
  (calculateInterval c5Cfg c5St2 "t" 1 c5Succ).2

/-- Concrete retry configuration (exponential backoff, base 0.1, cap 1.0)
mirroring the repository's exponential-backoff test. -/
def c4Cfg : RequestRetryConfig :=
  { enabled := true, attempts := 3, backoff := .exponential,
    base_delay := 1/10, max_delay := 1, statuses := [500],
    exception_types := [] }

/-! ## Theorems -/

theorem lexLe_refl (a : PRequest) : lexLe a a := Or.inr ⟨rfl, le_refl _⟩

theorem lexLe_trans {a b c : PRequest} (hab : lexLe a b) (hbc : lexLe b c) :
    lexLe a c := by
  rcases hab with h1 | ⟨h1, h1s⟩ <;> rcases hbc with h2 | ⟨h2, h2s⟩
  · exact Or.inl (lt_trans h1 h2)
  · exact Or.inl (h2 ▸ h1)
  · exact Or.inl (h1 ▸ h2)
  · exact Or.inr ⟨h1.trans h2, le_trans h1s h2s⟩

theorem lexLe_total (a b : PRequest) : lexLe a b ∨ lexLe b a := by
  rcases lt_trichotomy a.priority b.priority with h | h | h
  · exact Or.inl (Or.inl h)
  · rcases Nat.le_total a.seq b.seq with hs | hs
    · exact Or.inl (Or.inr ⟨h, hs⟩)
    · exact Or.inr (Or.inr ⟨h.symm, hs⟩)
  · exact Or.inr (Or.inl h)

theorem lexLe_priority {a b : PRequest} (h : lexLe a b) :
    a.priority ≤ b.priority := by
  rcases h with h | ⟨h, _⟩
  · exact le_of_lt h
  · exact le_of_eq h

theorem popMin_eq_none_iff {l : List PRequest} : popMin l = none ↔ l = [] := by
  cases l with
  | nil => simp [popMin]
  | cons e es =>
    constructor
    · intro h
      exfalso
      simp only [popMin] at h
      cases hes : popMin es with
      | none => rw [hes] at h; exact Option.noConfusion h
      | some p =>
        rw [hes] at h
        dsimp at h
        split at h <;> exact Option.noConfusion h
    · intro h
      exact List.noConfusion h

theorem popMin_perm {l : List PRequest} {m : PRequest} {rest : List PRequest}
    (h : popMin l = some (m, rest)) : (m :: rest).Perm l := by
  induction l generalizing m rest with
  | nil => simp [popMin] at h
  | cons e es ih =>
    simp only [popMin] at h
    cases hes : popMin es with
    | none =>
      rw [hes] at h
      simp only [Option.some.injEq, Prod.mk.injEq] at h
      obtain ⟨rfl, rfl⟩ := h
      have hnil : es = [] := popMin_eq_none_iff.mp hes
      subst hnil
      exact List.Perm.refl _
    | some p =>
      obtain ⟨m', rest'⟩ := p
      rw [hes] at h
      dsimp at h
      by_cases hle : lexLe e m'
      · rw [if_pos hle] at h
        simp only [Option.some.injEq, Prod.mk.injEq] at h
        obtain ⟨rfl, rfl⟩ := h
        exact List.Perm.refl _
      · rw [if_neg hle] at h
        simp only [Option.some.injEq, Prod.mk.injEq] at h
        obtain ⟨rfl, rfl⟩ := h
        have hperm : (m' :: rest').Perm es := ih hes
        exact (List.Perm.swap e m' rest').trans (hperm.cons e)

theorem popMin_le {l : List PRequest} {m : PRequest} {rest : List PRequest}
    (h : popMin l = some (m, rest)) : ∀ x ∈ l, lexLe m x := by
  induction l generalizing m rest with
  | nil => simp [popMin] at h
  | cons e es ih =>
    simp only [popMin] at h
    cases hes : popMin es with
    | none =>
      rw [hes] at h
      simp only [Option.some.injEq, Prod.mk.injEq] at h
      obtain ⟨rfl, rfl⟩ := h
      have hnil : es = [] := popMin_eq_none_iff.mp hes
      subst hnil
      intro x hx
      rcases List.mem_singleton.mp hx with rfl
      exact lexLe_refl _
    | some p =>
      obtain ⟨m', rest'⟩ := p
      rw [hes] at h
      dsimp at h
      by_cases hle : lexLe e m'
      · rw [if_pos hle] at h
        simp only [Option.some.injEq, Prod.mk.injEq] at h
        obtain ⟨rfl, rfl⟩ := h
        intro x hx
        rcases List.mem_cons.mp hx with rfl | hx
        · exact lexLe_refl _
        · exact lexLe_trans hle (ih hes x hx)
      · rw [if_neg hle] at h
        simp only [Option.some.injEq, Prod.mk.injEq] at h
        obtain ⟨rfl, rfl⟩ := h
        intro x hx
        rcases List.mem_cons.mp hx with rfl | hx
        · rcases lexLe_total x m' with hxm | hmx
          · exact absurd hxm hle
          · exact hmx
        · exact ih hes x hx

theorem popAllGo_perm :
    ∀ (n : Nat) (l : List PRequest), l.length ≤ n → (popAllGo n l).Perm l := by
  intro n
  induction n with
  | zero =>
    intro l hl
    have : l = [] := List.length_eq_zero.mp (Nat.le_zero.mp hl)
    subst this
    simp [popAllGo]
  | succ n ih =>
    intro l hl
    simp only [popAllGo]
    cases hpm : popMin l with
    | none =>
      have : l = [] := popMin_eq_none_iff.mp hpm
      subst this
      simp
    | some p =>
      obtain ⟨m, rest⟩ := p
      have hperm := popMin_perm hpm
      have hlen : rest.length + 1 = l.length := by
        simpa using hperm.length_eq
      have hrest : rest.length ≤ n := by omega
      exact ((ih rest hrest).cons m).trans hperm

theorem popAllGo_sorted :
    ∀ (n : Nat) (l : List PRequest), l.length ≤ n →
      List.Sorted lexLe (popAllGo n l) := by
  intro n
  induction n with
  | zero => intro l _; simp [popAllGo]
  | succ n ih =>
    intro l hl
    simp only [popAllGo]
    cases hpm : popMin l with
    | none => simp
    | some p =>
      obtain ⟨m, rest⟩ := p
      have hperm := popMin_perm hpm
      have hlen : rest.length + 1 = l.length := by
        simpa using hperm.length_eq
      have hrest : rest.length ≤ n := by omega
      refine List.sorted_cons.mpr ⟨?_, ih rest hrest⟩
      intro b hb
      have hbrest : b ∈ rest := (popAllGo_perm n rest hrest).mem_iff.mp hb
      have hbl : b ∈ l := hperm.subset (List.mem_cons_of_mem m hbrest)
      exact popMin_le hpm b hbl

theorem popDueDelayedGo_spec (now : Rat) :
    ∀ (n : Nat) (st : SchedulerState), st.heap.length ≤ n →
      ((popDueDelayedGo now n st).ready).Perm
        (st.ready ++
          (st.heap.filter (fun e => decide (e.priority ≤ now))).map dropDelay)
      ∧ ((popDueDelayedGo now n st).heap).Perm
          (st.heap.filter (fun e => !decide (e.priority ≤ now)))
      ∧ (popDueDelayedGo now n st).nextSeq = st.nextSeq := by
  intro n
  induction n with
  | zero =>
    intro st hl
    have hnil : st.heap = [] := List.length_eq_zero.mp (Nat.le_zero.mp hl)
    rw [hnil]
    simp [popDueDelayedGo, hnil]
  | succ n ih =>
    intro st hl
    simp only [popDueDelayedGo]
    cases hpm : popMin st.heap with
    | none =>
      have hnil := popMin_eq_none_iff.mp hpm
      rw [hnil]
      simp [hnil]
    | some p =>
      obtain ⟨m, rest⟩ := p
      have hperm := popMin_perm hpm
      have hlen : rest.length + 1 = st.heap.length := by
        simpa using hperm.length_eq
      dsimp only
      by_cases hdue : m.priority ≤ now
      · rw [if_pos hdue]
        have hrest :
            ({ st with
                ready := st.ready ++ [dropDelay m]
                heap := rest } : SchedulerState).heap.length ≤ n := by
          dsimp
          omega
        obtain ⟨hready, hheap, hseq⟩ := ih _ hrest
        dsimp at hready hheap hseq
        refine ⟨?_, ?_, hseq⟩
        · refine hready.trans ?_
          have hfl :
              ((m :: rest).filter (fun e => decide (e.priority ≤ now))).Perm
                (st.heap.filter (fun e => decide (e.priority ≤ now))) :=
            hperm.filter _
          rw [List.filter_cons_of_pos (by simpa using hdue)] at hfl
          have hmap := (hfl.map dropDelay)
          have := hmap.append_left st.ready
          simpa [List.append_assoc] using this
        · refine hheap.trans ?_
          have hfl :
              ((m :: rest).filter (fun e => !decide (e.priority ≤ now))).Perm
                (st.heap.filter (fun e => !decide (e.priority ≤ now))) :=
            hperm.filter _
          rw [List.filter_cons_of_neg (by simpa using hdue)] at hfl
          exact hfl
      · rw [if_neg hdue]
        have hall : ∀ x ∈ st.heap, ¬ x.priority ≤ now := by
          intro x hx hxle
          exact hdue (le_trans (lexLe_priority (popMin_le hpm x hx)) hxle)
        refine ⟨?_, ?_, rfl⟩
        · have hfil : st.heap.filter (fun e => decide (e.priority ≤ now)) = [] :=
            List.filter_eq_nil_iff.mpr (by simpa using hall)
          simp [hfil]
        · have hfil :
              st.heap.filter (fun e => !decide (e.priority ≤ now)) = st.heap :=
            List.filter_eq_self.mpr (by simpa using hall)
          rw [hfil]

/-- **C1** — counterexample.  Two requests: `c1ReqA` with priority 0 submitted
with a 1-second delay at time 100, `c1ReqB` with priority 5 submitted without
delay.  After the heap drain at time 101 both are in the ready queue, neither
dispatched yet, and `c1ReqA.priority < c1ReqB.priority`; yet the dispatch
loop dequeues `c1ReqB` first, because the drained envelope keeps its due time
(101) as key instead of the request priority (0).  This refutes the claim
that envelopes moved from the delayed heap order by request priority once
ready. -/
theorem c1_counterexample :
    c1ReqA.priority < c1ReqB.priority ∧
    (popAllReady c1State.ready).map (fun e => e.request.priority) = [5, 0] := by
  have hst :
      c1State = ⟨[⟨5, 1, c1ReqB⟩, ⟨101, 0, { c1ReqA with delay := none }⟩], [], 2⟩ := by
    simp [c1State, sender, c1ReqA, c1ReqB, delayTruthy, popDueDelayed,
      popDueDelayedGo, popMin, dropDelay, lexLe]
    norm_num
  rw [hst]
  constructor
  · decide
  · decide

/-- **C1** (amended).  The dispatch loop dequeues the ready queue in
ascending envelope-key order, FIFO on equal keys (the lexicographic
`(priority, seq)` order), and the dequeued envelopes are exactly the queued
ones; an undelayed submission enters the ready queue keyed by
`request.priority`; a delayed submission enters the delayed heap keyed by
its due time `now + delay`; the heap drain moves exactly the due envelopes
(`due <= now`) into the ready queue, clearing `request.delay` but keeping
the due time as the envelope key. -/
theorem c1_dispatch_order_amended :
    (∀ l : List PRequest,
        List.Sorted lexLe (popAllReady l) ∧ (popAllReady l).Perm l)
    ∧ (∀ (now : Rat) (st : SchedulerState) (r : Request),
        r.json_data = none → delayTruthy r.delay = false →
        sender now st r =
          .ok ({ st with
                  ready := st.ready ++ [⟨(r.priority : Rat), st.nextSeq, r⟩]
                  nextSeq := st.nextSeq + 1 }, r))
    ∧ (∀ (now : Rat) (st : SchedulerState) (r : Request),
        r.json_data = none → delayTruthy r.delay = true →
        sender now st r =
          .ok ({ st with
                  heap := st.heap ++ [⟨now + r.delay.getD 0, st.nextSeq, r⟩]
                  nextSeq := st.nextSeq + 1 }, r))
    ∧ (∀ (now : Rat) (st : SchedulerState),
        ((popDueDelayed now st).ready).Perm
          (st.ready ++
            (st.heap.filter (fun e => decide (e.priority ≤ now))).map dropDelay)
        ∧ ((popDueDelayed now st).heap).Perm
            (st.heap.filter (fun e => !decide (e.priority ≤ now)))) := by
  refine ⟨?_, ?_, ?_, ?_⟩
  · intro l
    exact ⟨popAllGo_sorted _ _ le_rfl, popAllGo_perm _ _ le_rfl⟩
  · intro now st r hjson hdelay
    simp [sender, hjson, hdelay]
  · intro now st r hjson hdelay
    simp [sender, hjson, hdelay]
  · intro now st
    obtain ⟨h1, h2, _⟩ := popDueDelayedGo_spec now st.heap.length st le_rfl
    exact ⟨h1, h2⟩

/-- **C1** witness: the amended theorem instantiated at a concrete undelayed
submission and at the concrete two-envelope queue of the counterexample
scenario. -/
theorem c1_dispatch_order_amended_witness :
    sender 7 {} { url := "w" } =
      .ok ({ ({} : SchedulerState) with
              ready :=
                ([] : List PRequest) ++ [⟨((0 : Int) : Rat), 0, { url := "w" }⟩]
              nextSeq := 0 + 1 }, { url := "w" })
    ∧ List.Sorted lexLe (popAllReady [⟨5, 1, c1ReqB⟩, ⟨101, 0, c1ReqA⟩]) :=
  ⟨c1_dispatch_order_amended.2.1 7 {} { url := "w" } rfl rfl,
   (c1_dispatch_order_amended.1 [⟨5, 1, c1ReqB⟩, ⟨101, 0, c1ReqA⟩]).1⟩

/-- **C2** — counterexample.  A request whose `delay` is set to `0.0` is
"set" but falsy in Python, so `sender` puts it on the ready queue (keyed by
its priority) and the delayed heap stays empty — against the claim that a
set `delay` always sends the envelope to the delayed heap. -/
theorem c2_counterexample :
    sender 100 {} { url := "x", delay := some 0 } =
      .ok (⟨[⟨((0 : Int) : Rat), 0, { url := "x", delay := some 0 }⟩], [], 1⟩,
           { url := "x", delay := some 0 })
    ∧ ({ url := "x", delay := some 0 } : Request).delay ≠ none := by
  exact ⟨rfl, by decide⟩

/-- **C2** (amended).  Submitting via the `Sender`: combining `json_data`
with `data`, or `json_data` with `files`, fails with `InvalidRequestData`
(and direct construction of such a `Request` fails the same way in
`__post_init__`); otherwise, when `delay` is set *and non-zero* the envelope
`(now + delay, r)` is pushed onto the delayed heap, and when `delay` is
unset or zero the envelope `(r.priority, r)` is put onto the ready queue; in
every successful case the very same request `r` is returned. -/
theorem c2_sender_contract (now : Rat) (st : SchedulerState) (r : Request) :
    ((r.json_data.isSome && r.data.isSome) = true →
      sender now st r =
        .error (.invalidRequestData "Cannot send both data and json_data")
      ∧ r.postInit =
        .error (.invalidRequestData "Cannot send both data and json_data"))
    ∧ ((r.json_data.isSome && r.data.isSome) = false →
        (r.json_data.isSome && r.files.isSome) = true →
      sender now st r =
        .error (.invalidRequestData "Cannot send both files and json_data")
      ∧ r.postInit =
        .error (.invalidRequestData "Cannot send both files and json_data"))
    ∧ ((r.json_data.isSome && r.data.isSome) = false →
        (r.json_data.isSome && r.files.isSome) = false →
        r.postInit = .ok r
        ∧ (delayTruthy r.delay = true →
            sender now st r =
              .ok ({ st with
                      heap := st.heap ++ [⟨now + r.delay.getD 0, st.nextSeq, r⟩]
                      nextSeq := st.nextSeq + 1 }, r))
        ∧ (delayTruthy r.delay = false →
            sender now st r =
              .ok ({ st with
                      ready := st.ready ++ [⟨(r.priority : Rat), st.nextSeq, r⟩]
                      nextSeq := st.nextSeq + 1 }, r))) := by
  refine ⟨?_, ?_, ?_⟩
  · intro h1
    constructor
    · simp [sender, h1]
    · simp [Request.postInit, h1]
  · intro h1 h2
    constructor
    · simp [sender, h1, h2]
    · simp [Request.postInit, h1, h2]
  · intro h1 h2
    refine ⟨by simp [Request.postInit, h1, h2], ?_, ?_⟩
    · intro hd
      simp [sender, h1, h2, hd]
    · intro hd
      simp [sender, h1, h2, hd]

/-- **C2** witness: the amended contract instantiated at a conflicting
request (both `data` and `json_data`), at a delayed request and at an
undelayed one. -/
theorem c2_sender_contract_witness :
    (sender 3 {} { url := "e", data := some "d", json_data := some "j" } =
      .error (.invalidRequestData "Cannot send both data and json_data")
     ∧ ({ url := "e", data := some "d", json_data := some "j" } : Request).postInit =
      .error (.invalidRequestData "Cannot send both data and json_data"))
    ∧ sender 3 {} { url := "d", delay := some 2 } =
        .ok ({ ({} : SchedulerState) with
                heap := ([] : List PRequest) ++
                  [⟨(3 : Rat) + ((some (2 : Rat)).getD 0), 0,
                    { url := "d", delay := some 2 }⟩]
                nextSeq := 0 + 1 }, { url := "d", delay := some 2 })
    ∧ sender 3 {} { url := "u" } =
        .ok ({ ({} : SchedulerState) with
                ready := ([] : List PRequest) ++
                  [⟨((0 : Int) : Rat), 0, { url := "u" }⟩]
                nextSeq := 0 + 1 }, { url := "u" }) :=
  ⟨(c2_sender_contract 3 {} { url := "e", data := some "d", json_data := some "j" }).1 rfl,
   (((c2_sender_contract 3 {} { url := "d", delay := some 2 }).2.2 rfl rfl).2.1 (by decide)),
   (((c2_sender_contract 3 {} { url := "u" }).2.2 rfl rfl).2.2 rfl)⟩

theorem stateGet_stateSet_self (st : List (String × Nat)) (k : String)
    (v : Nat) : stateGet (stateSet st k v) k = v := by
  simp [stateGet, stateSet]

theorem RetryMiddleware_call_cases (m : RetryMiddleware) (r : Request)
    (e : ExcInfo) :
    m.call r e = (r, false) ∨
    (stateGet r.state RETRY_STATE_KEY < m.attemptsClamped ∧
      m.call r e =
        ({ r with
            state := stateSet r.state RETRY_STATE_KEY
              (stateGet r.state RETRY_STATE_KEY + 1) }, true)) := by
  unfold RetryMiddleware.call
  split
  · exact Or.inl rfl
  · dsimp only
    split
    · exact Or.inl rfl
    · rename_i hnot
      exact Or.inr ⟨by omega, rfl⟩

theorem runRetries_spec (m : RetryMiddleware) :
    ∀ (excs : List ExcInfo) (r : Request),
      stateGet (runRetries m r excs).1.state RETRY_STATE_KEY =
        stateGet r.state RETRY_STATE_KEY + (runRetries m r excs).2
      ∧ stateGet r.state RETRY_STATE_KEY + (runRetries m r excs).2 ≤
          max m.attemptsClamped (stateGet r.state RETRY_STATE_KEY) := by
  intro excs
  induction excs with
  | nil =>
    intro r
    constructor
    · simp [runRetries]
    · simp [runRetries]
  | cons e es ih =>
    intro r
    simp only [runRetries]
    rcases RetryMiddleware_call_cases m r e with hc | ⟨hlt, hc⟩
    · rw [hc]
      dsimp only
      obtain ⟨ih1, ih2⟩ := ih r
      constructor
      · simpa using ih1
      · simpa using ih2
    · rw [hc]
      dsimp only
      obtain ⟨ih1, ih2⟩ :=
        ih { r with
              state := stateSet r.state RETRY_STATE_KEY
                (stateGet r.state RETRY_STATE_KEY + 1) }
      rw [show stateGet
            (stateSet r.state RETRY_STATE_KEY
              (stateGet r.state RETRY_STATE_KEY + 1)) RETRY_STATE_KEY =
            stateGet r.state RETRY_STATE_KEY + 1 from
          stateGet_stateSet_self _ _ _] at ih1 ih2
      have hif : (if (true : Bool) = true then (1 : Nat) else 0) = 1 := rfl
      constructor
      · rw [ih1, hif]
        omega
      · rw [hif]
        have hmax : max m.attemptsClamped
            (stateGet r.state RETRY_STATE_KEY + 1) = m.attemptsClamped :=
          Nat.max_eq_left (by omega)
        rw [hmax] at ih2
        have hml := Nat.le_max_left m.attemptsClamped
          (stateGet r.state RETRY_STATE_KEY)
        omega

/-- **C3**.  The retry middleware (`src/aioscraper/middlewares/retry.py`
lines 27-39) re-submits a request at most `attempts` times: over any
sequence of failures routed through it, the number of re-submissions never
exceeds `max(0, attempts)` (hence `attempts` whenever `attempts >= 0`); a
call finding the counter at or above `attempts` re-submits nothing and
leaves the request untouched; and every re-submission first stores the
incremented counter under the reserved state key. -/
theorem c3_retry_bounded (m : RetryMiddleware) (r : Request)
    (excs : List ExcInfo) (e : ExcInfo) :
    (stateGet r.state RETRY_STATE_KEY = 0 →
      (runRetries m r excs).2 ≤ m.attemptsClamped)
    ∧ (stateGet r.state RETRY_STATE_KEY = 0 → 0 ≤ m.attempts →
        ((runRetries m r excs).2 : Int) ≤ m.attempts)
    ∧ (m.attemptsClamped ≤ stateGet r.state RETRY_STATE_KEY →
        (m.call r e).2 = false ∧ (m.call r e).1 = r)
    ∧ ((m.call r e).2 = true →
        stateGet (m.call r e).1.state RETRY_STATE_KEY =
          stateGet r.state RETRY_STATE_KEY + 1) := by
  refine ⟨?_, ?_, ?_, ?_⟩
  · intro h0
    obtain ⟨_, h2⟩ := runRetries_spec m excs r
    rw [h0] at h2
    simpa using h2
  · intro h0 hpos
    obtain ⟨_, h2⟩ := runRetries_spec m excs r
    rw [h0] at h2
    have : (runRetries m r excs).2 ≤ m.attemptsClamped := by simpa using h2
    unfold RetryMiddleware.attemptsClamped at this
    omega
  · intro hge
    rcases RetryMiddleware_call_cases m r e with hc | ⟨hlt, _⟩
    · rw [hc]
      exact ⟨rfl, rfl⟩
    · omega
  · intro htrue
    rcases RetryMiddleware_call_cases m r e with hc | ⟨_, hc⟩
    · rw [hc] at htrue
      exact absurd htrue (by simp)
    · rw [hc]
      exact stateGet_stateSet_self _ _ _

/-- **C3** witness: a concrete enabled middleware with `attempts = 2` and
three matching 500-failures in a row — exactly two re-submissions happen,
and one concrete call increments the counter from 0 to 1. -/
theorem c3_retry_bounded_witness :
    (runRetries
        { enabled := true, attempts := 2, statuses := [500],
          exception_types := [] }
        { url := "r" }
        [⟨true, 500, 1⟩, ⟨true, 500, 1⟩, ⟨true, 500, 1⟩]).2 ≤
      ({ enabled := true, attempts := 2, statuses := [500],
          exception_types := [] } : RetryMiddleware).attemptsClamped
    ∧ ((runRetries
          { enabled := true, attempts := 2, statuses := [500],
            exception_types := [] }
          { url := "r" }
          [⟨true, 500, 1⟩, ⟨true, 500, 1⟩, ⟨true, 500, 1⟩]).2 : Int) ≤ 2
    ∧ stateGet
        (({ enabled := true, attempts := 2, statuses := [500],
            exception_types := [] } : RetryMiddleware).call
          { url := "r" } ⟨true, 500, 1⟩).1.state RETRY_STATE_KEY =
        stateGet ({ url := "r" } : Request).state RETRY_STATE_KEY + 1 :=
  ⟨(c3_retry_bounded _ { url := "r" } _ ⟨true, 500, 1⟩).1 rfl,
   (c3_retry_bounded _ { url := "r" } _ ⟨true, 500, 1⟩).2.1 rfl (by decide),
   (c3_retry_bounded
      { enabled := true, attempts := 2, statuses := [500],
        exception_types := [] }
      { url := "r" }
      [⟨true, 500, 1⟩, ⟨true, 500, 1⟩, ⟨true, 500, 1⟩] ⟨true, 500, 1⟩).2.2.2
      (by decide)⟩

/-- **C4**.  For a retried request without a Retry-After value, the scheduled
delay applied before re-submission equals `delay_factory(n)` where `n` is the
1-based attempt number (`stored counter + 1`); and `delay_factory` computes,
per strategy: CONSTANT `base_delay`; LINEAR `base_delay * n`; EXPONENTIAL
`min(max_delay, base_delay * 2^n)`; EXPONENTIAL_JITTER
`min(max_delay, d/2 + u)` with `d = base_delay * 2^n` and `u` the value
sampled from `random.uniform(0, d/2)`. -/
theorem c4_backoff_delay (cfg : RequestRetryConfig) (r : Request)
    (exc : ExcInfo) (u : Rat) (r' : Request) :
    (retryMiddlewareCall cfg r exc none u = (r', true) →
      r'.delay =
        some (cfg.delay_factory u (stateGet r.state RETRY_STATE_KEY + 1)))
    ∧ (∀ n : Nat,
        (cfg.backoff = .constant → cfg.delay_factory u n = cfg.base_delay)
        ∧ (cfg.backoff = .linear →
            cfg.delay_factory u n = cfg.base_delay * n)
        ∧ (cfg.backoff = .exponential →
            cfg.delay_factory u n = min cfg.max_delay (cfg.base_delay * 2 ^ n))
        ∧ (cfg.backoff = .exponential_jitter →
            cfg.delay_factory u n =
              min cfg.max_delay (cfg.base_delay * 2 ^ n / 2 + u))) := by
  constructor
  · intro h
    unfold retryMiddlewareCall at h
    split at h
    · simp at h
    · dsimp only at h
      split at h
      · simp at h
      · have hfst := congrArg Prod.fst h
        dsimp at hfst
        rw [← hfst]
  · intro n
    refine ⟨?_, ?_, ?_, ?_⟩ <;> intro hb <;>
      simp [RequestRetryConfig.delay_factory, hb]

/-- **C4** witness: with the concrete exponential configuration, a first
retry (counter 0) of a matching 500-failure re-submits the request with
scheduled delay `delay_factory(1) = min(1, 0.1 * 2)`. -/
theorem c4_backoff_delay_witness :
    ({ url := "r", state := stateSet [] RETRY_STATE_KEY 1,
       delay := some (c4Cfg.delay_factory 0 1) } : Request).delay =
      some (c4Cfg.delay_factory 0
        (stateGet ({ url := "r" } : Request).state RETRY_STATE_KEY + 1))
    ∧ c4Cfg.delay_factory 0 1 = min c4Cfg.max_delay (c4Cfg.base_delay * 2 ^ 1) :=
  ⟨(c4_backoff_delay c4Cfg { url := "r" } ⟨true, 500, 1⟩ 0
      { url := "r", state := stateSet [] RETRY_STATE_KEY 1,
        delay := some (c4Cfg.delay_factory 0 1) }).1 rfl,
   ((c4_backoff_delay c4Cfg { url := "r" } ⟨true, 500, 1⟩ 0
      { url := "r" }).2 1).2.2.1 rfl⟩

theorem metricsGet_metricsSet_self (st : List (String × AdaptiveMetrics))
    (k : String) (m : AdaptiveMetrics) :
    metricsGet (metricsSet st k m) k = m := by
  simp [metricsGet, metricsSet]

/-- **C5** — counterexample.  (i) A trigger-matching failure (status 429)
carrying `Retry-After: 3.5` under `respect_retry_after` yields interval 3.5,
not `min(max_interval, current * increase_factor) = 0.2` as the claim states
for every trigger-matching failure.  (ii) With `success_threshold = 3` and
the interval decreased on the third consecutive success, the stored
consecutive-success counter is 3, not 0 — it is not reset (and accordingly a
fourth success at interval 0.99 decreases again to 0.98, the behaviour pinned
by the repository's own adaptive tests). -/
theorem c5_counterexample :
    ((calculateInterval c5Cfg [] "t" (1/10) c5Fail).1 = 7/2
      ∧ (7/2 : Rat) ≠ min c5Cfg.max_interval ((1/10) * c5Cfg.increase_factor))
    ∧ (calculateInterval c5Cfg c5St2 "t" 1 c5Succ).1 = 99/100
    ∧ (metricsGet c5St3 "t").success_count = 3
    ∧ (3 : Nat) ≠ 0
    ∧ (calculateInterval c5Cfg c5St3 "t" (99/100) c5Succ).1 = 98/100 := by
  have hsucc : matchesTrigger c5Cfg c5Succ = false := rfl
  have hra : (c5Cfg.respect_retry_after && c5Succ.retry_after.isSome) = false := rfl
  have hm1 : metricsGet c5St1 "t" =
      (metricsGet [] "t").record_success c5Cfg.ewma_alpha c5Succ.latency := by
    simp [c5St1, calculateInterval, hsucc, metricsGet_metricsSet_self]
  have hm2 : metricsGet c5St2 "t" =
      (metricsGet c5St1 "t").record_success c5Cfg.ewma_alpha c5Succ.latency := by
    simp [c5St2, calculateInterval, hsucc, metricsGet_metricsSet_self]
  have hm3 : metricsGet c5St3 "t" =
      (metricsGet c5St2 "t").record_success c5Cfg.ewma_alpha c5Succ.latency := by
    simp [c5St3, calculateInterval, hsucc, metricsGet_metricsSet_self]
  have hc1 : (metricsGet c5St1 "t").success_count = 1 := by
    rw [hm1]; rfl
  have hc2 : (metricsGet c5St2 "t").success_count = 2 := by
    rw [hm2, AdaptiveMetrics.record_success, hc1]
  have hc3 : (metricsGet c5St3 "t").success_count = 3 := by
    rw [hm3, AdaptiveMetrics.record_success, hc2]
  refine ⟨⟨?_, ?_⟩, ?_, hc3, by decide, ?_⟩
  · simp only [calculateInterval, c5Fail, c5Cfg]
    norm_num
  · norm_num [c5Cfg]
  · have hcnt : (((metricsGet c5St2 "t").record_success c5Cfg.ewma_alpha
        c5Succ.latency).success_count) = 3 := by
      rw [AdaptiveMetrics.record_success, hc2]
    simp only [calculateInterval, hsucc, hra, hcnt, Bool.false_eq_true,
      if_false]
    norm_num [c5Cfg]
  · have hcnt : (((metricsGet c5St3 "t").record_success c5Cfg.ewma_alpha
        c5Succ.latency).success_count) = 4 := by
      rw [AdaptiveMetrics.record_success, hc3]
    simp only [calculateInterval, hsucc, hra, hcnt, Bool.false_eq_true,
      if_false]
    norm_num [c5Cfg]

/-- **C5** (amended).  For every group: when `respect_retry_after` is on and
the outcome carries `retry_after`, the next interval is
`min(max_interval, retry_after)` (taking precedence over the failure rule);
otherwise a trigger-matching failure yields
`min(max_interval, current * increase_factor)`; a failure (trigger match)
resets the consecutive-success counter to 0 while a success increments it;
and, absent a honoured Retry-After, a success whose incremented counter has
reached `success_threshold` yields `max(min_interval, current -
decrease_step)` (the counter is maintained by the metrics and is not reset
by the decrease), while below the threshold the interval is unchanged. -/
theorem c5_adaptive_amended (cfg : AdaptiveRateLimitConfig)
    (st : List (String × AdaptiveMetrics)) (key : String) (cur : Rat)
    (o : RequestOutcome) :
    ((cfg.respect_retry_after && o.retry_after.isSome) = true →
      (calculateInterval cfg st key cur o).1 =
        min cfg.max_interval (o.retry_after.getD 0))
    ∧ ((cfg.respect_retry_after && o.retry_after.isSome) = false →
        matchesTrigger cfg o = true →
        (calculateInterval cfg st key cur o).1 =
          min cfg.max_interval (cur * cfg.increase_factor))
    ∧ (matchesTrigger cfg o = true →
        (metricsGet (calculateInterval cfg st key cur o).2 key).success_count
          = 0)
    ∧ (matchesTrigger cfg o = false →
        (metricsGet (calculateInterval cfg st key cur o).2 key).success_count
          = (metricsGet st key).success_count + 1)
    ∧ ((cfg.respect_retry_after && o.retry_after.isSome) = false →
        matchesTrigger cfg o = false →
        (cfg.success_threshold ≤ (metricsGet st key).success_count + 1 →
          (calculateInterval cfg st key cur o).1 =
            max cfg.min_interval (cur - cfg.decrease_step))
        ∧ ((metricsGet st key).success_count + 1 < cfg.success_threshold →
          (calculateInterval cfg st key cur o).1 = cur)) := by
  refine ⟨?_, ?_, ?_, ?_, ?_⟩
  · intro hra
    simp [calculateInterval, hra]
  · intro hra hf
    simp [calculateInterval, hra, hf]
  · intro hf
    simp [calculateInterval, hf, metricsGet_metricsSet_self,
      AdaptiveMetrics.record_failure]
  · intro hf
    simp [calculateInterval, hf, metricsGet_metricsSet_self,
      AdaptiveMetrics.record_success]
  · intro hra hf
    constructor
    · intro hth
      have hcnt : ((metricsGet st key).record_success cfg.ewma_alpha
          o.latency).success_count = (metricsGet st key).success_count + 1 :=
        rfl
      simp [calculateInterval, hra, hf, hcnt, hth]
    · intro hth
      have hcnt : ((metricsGet st key).record_success cfg.ewma_alpha
          o.latency).success_count = (metricsGet st key).success_count + 1 :=
        rfl
      simp [calculateInterval, hra, hf, hcnt, Nat.not_le_of_lt hth]

/-- **C5** witness: the amended rules instantiated at the concrete adaptive
configuration — the Retry-After override on a concrete 429 outcome, and the
success-count increment on a concrete successful outcome. -/
theorem c5_adaptive_amended_witness :
    (calculateInterval c5Cfg [] "t" (1/10) c5Fail).1 =
      min c5Cfg.max_interval (c5Fail.retry_after.getD 0)
    ∧ (metricsGet (calculateInterval c5Cfg [] "t" 1 c5Succ).2 "t").success_count
        = (metricsGet [] "t").success_count + 1 :=
  ⟨(c5_adaptive_amended c5Cfg [] "t" (1/10) c5Fail).1 rfl,
   (c5_adaptive_amended c5Cfg [] "t" 1 c5Succ).2.2.2.1 rfl⟩

/-- **C6**.  For a worker whose transport call completed and whose response
middleware chain ran to completion: when `response.ok` (that is,
`status < 400`) or `raise_for_status` is unset, the callback is invoked when
present (and nothing else happens when absent); otherwise an `HTTPException`
carrying exactly the final url, method, status, headers and decoded body is
constructed and routed to the error path — exception middlewares first,
then the errback when present (else the failure is logged) — and the
callback is never invoked on that path. -/
theorem c6_response_routing (respMws excMws : List MwSignal) (r : Request)
    (resp : Response) (hchain : runChain respMws = .completed) :
    ((resp.ok || !r.raise_for_status) = true →
      (r.callback = true →
        sendRequestAfterTransport respMws excMws r resp = .callbackInvoked)
      ∧ (r.callback = false →
        sendRequestAfterTransport respMws excMws r resp = .noCallback))
    ∧ ((resp.ok || !r.raise_for_status) = false →
        sendRequestAfterTransport respMws excMws r resp =
          .errorPath
            (.http ⟨r.url, resp.method, resp.status, resp.headers, resp.body⟩)
            (handleException excMws r.errback
              (.http ⟨r.url, resp.method, resp.status, resp.headers, resp.body⟩))
        ∧ sendRequestAfterTransport respMws excMws r resp ≠ .callbackInvoked)
    ∧ (resp.ok = decide (resp.status < 400))
    ∧ (∀ exc : ExcVal, runChain excMws = .completed →
        handleException excMws r.errback exc =
          if r.errback then .errback exc else .logged exc) := by
  refine ⟨?_, ?_, rfl, ?_⟩
  · intro hok
    constructor
    · intro hcb
      simp [sendRequestAfterTransport, hchain, hok, hcb]
    · intro hcb
      simp [sendRequestAfterTransport, hchain, hok, hcb]
  · intro hok
    constructor
    · simp [sendRequestAfterTransport, hchain, hok]
    · simp [sendRequestAfterTransport, hchain, hok]
  · intro exc hexc
    simp [handleException, hexc]

/-- **C6** witness: with empty middleware chains, a 200-response request with
a callback gets its callback invoked, while a 404-response request with
`raise_for_status` gets the `HTTPException` routed to its errback and its
callback is not invoked. -/
theorem c6_response_routing_witness :
    sendRequestAfterTransport [] []
      { url := "u", callback := true }
      ⟨"u", "GET", 200, [], "ok"⟩ = .callbackInvoked
    ∧ sendRequestAfterTransport [] []
        { url := "u", callback := true, errback := true }
        ⟨"u", "GET", 404, [("k", "v")], "missing"⟩ =
      .errorPath (.http ⟨"u", "GET", 404, [("k", "v")], "missing"⟩)
        (handleException [] true (.http ⟨"u", "GET", 404, [("k", "v")], "missing"⟩))
    ∧ sendRequestAfterTransport [] []
        { url := "u", callback := true, errback := true }
        ⟨"u", "GET", 404, [("k", "v")], "missing"⟩ ≠ .callbackInvoked
    ∧ handleException [] true (.http ⟨"u", "GET", 404, [("k", "v")], "missing"⟩)
        = .errback (.http ⟨"u", "GET", 404, [("k", "v")], "missing"⟩) :=
  ⟨((c6_response_routing [] [] { url := "u", callback := true }
      ⟨"u", "GET", 200, [], "ok"⟩ rfl).1 rfl).1 rfl,
   ((c6_response_routing [] [] { url := "u", callback := true, errback := true }
      ⟨"u", "GET", 404, [("k", "v")], "missing"⟩ rfl).2.1 rfl).1,
   ((c6_response_routing [] [] { url := "u", callback := true, errback := true }
      ⟨"u", "GET", 404, [("k", "v")], "missing"⟩ rfl).2.1 rfl).2,
   (c6_response_routing [] [] { url := "u", callback := true, errback := true }
      ⟨"u", "GET", 404, [("k", "v")], "missing"⟩ rfl).2.2.2
     (.http ⟨"u", "GET", 404, [("k", "v")], "missing"⟩) rfl⟩

/-- **C7**.  Whatever each outer middleware does — return normally, raise
`StopRequestProcessing`, raise `StopMiddlewareProcessing`, or raise any
other exception — `_process_request` swallows it: all outer middlewares are
executed, the request is still handed to the rate limiter, and no exception
escapes to the dispatch loop (so the loop never terminates because of an
outer middleware). -/
theorem c7_outer_swallowed (outerMws : List MwSignal) :
    (processRequest outerMws).executed = outerMws.length
    ∧ (processRequest outerMws).rateLimiterCalled = true
    ∧ (processRequest outerMws).escaped = none := by
  have hgo : ∀ (ms : List MwSignal) (n : Nat),
      processRequestGo ms n = ⟨n + ms.length, true, none⟩ := by
    intro ms
    induction ms with
    | nil => intro n; simp [processRequestGo]
    | cons m ms ih =>
      intro n
      cases m <;> simp [processRequestGo, ih, Nat.add_comm, Nat.add_assoc,
        Nat.add_left_comm]
  unfold processRequest
  rw [hgo]
  exact ⟨by simp, rfl, rfl⟩

theorem mwLex_priority_le {a b : RegisteredMiddleware} (h : mwLex a b) :
    a.priority ≤ b.priority := by
  rcases h with h | ⟨h, _⟩
  · exact le_of_lt h
  · exact le_of_eq h

theorem orderedInsert_pairwise_lex (x : RegisteredMiddleware) :
    ∀ l : List RegisteredMiddleware,
      List.Pairwise mwLex l →
      (∀ y ∈ l, x.priority = y.priority → x.seq < y.seq) →
      List.Pairwise mwLex (List.orderedInsert mwPriLe x l) := by
  intro l
  induction l with
  | nil =>
    intro _ _
    simp [List.orderedInsert]
  | cons b l ih =>
    intro hp hx
    rw [List.orderedInsert]
    obtain ⟨hb, hpl⟩ := List.pairwise_cons.mp hp
    by_cases hle : mwPriLe x b
    · rw [if_pos hle]
      refine List.Pairwise.cons ?_ hp
      intro c hc
      have hxcle : x.priority ≤ c.priority := by
        rcases List.mem_cons.mp hc with rfl | hcl
        · exact hle
        · exact le_trans hle (mwLex_priority_le (hb c hcl))
      rcases lt_or_eq_of_le hxcle with hlt | heq
      · exact Or.inl hlt
      · exact Or.inr ⟨heq, hx c hc heq⟩
    · rw [if_neg hle]
      refine List.Pairwise.cons ?_
        (ih hpl (fun y hy hpri => hx y (List.mem_cons_of_mem _ hy) hpri))
      intro c hc
      rcases (List.mem_orderedInsert mwPriLe).mp hc with rfl | hcl
      · exact Or.inl (lt_of_not_le hle)
      · exact hb c hcl

theorem insertionSort_pairwise_lex :
    ∀ l : List RegisteredMiddleware,
      List.Pairwise (fun a b => a.priority = b.priority → a.seq < b.seq) l →
      List.Pairwise mwLex (List.insertionSort mwPriLe l) := by
  intro l
  induction l with
  | nil =>
    intro _
    simp [List.insertionSort]
  | cons x l ih =>
    intro hp
    obtain ⟨hx, hpl⟩ := List.pairwise_cons.mp hp
    rw [List.insertionSort]
    refine orderedInsert_pairwise_lex x _ (ih hpl) ?_
    intro y hy hpri
    exact hx y ((List.mem_insertionSort mwPriLe).mp hy) hpri

theorem MiddlewareBucket_add_inv (b : MiddlewareBucket) (priority : Int)
    (count : Nat) (hp : List.Pairwise mwLex b.items)
    (hs : ∀ e ∈ b.items, e.seq < b.nextSeq) :
    List.Pairwise mwLex (b.add priority count).items
    ∧ ∀ e ∈ (b.add priority count).items,
        e.seq < (b.add priority count).nextSeq := by
  unfold MiddlewareBucket.add
  dsimp only
  constructor
  · refine insertionSort_pairwise_lex _ ?_
    rw [List.pairwise_append]
    refine ⟨?_, ?_, ?_⟩
    · refine hp.imp ?_
      intro a c hac heq
      rcases hac with h | ⟨_, hseq⟩
      · exact absurd (heq ▸ h) (lt_irrefl _)
      · exact hseq
    · refine List.Pairwise.map _ ?_ (List.pairwise_lt_range count)
      intro i j hij _
      dsimp
      omega
    · intro a ha c hc _
      obtain ⟨i, _, rfl⟩ := List.mem_map.mp hc
      have := hs a ha
      dsimp
      omega
  · intro e he
    have hmem : e ∈ b.items ++ (List.range count).map
        (fun i => (⟨priority, b.nextSeq + i⟩ : RegisteredMiddleware)) :=
      (List.mem_insertionSort mwPriLe).mp he
    rcases List.mem_append.mp hmem with hold | hnew
    · have := hs e hold
      omega
    · obtain ⟨i, hi, rfl⟩ := List.mem_map.mp hnew
      have := List.mem_range.mp hi
      dsimp
      omega

theorem runAdds_inv (ops : List (Int × Nat)) :
    List.Pairwise mwLex (runAdds ops).items
    ∧ ∀ e ∈ (runAdds ops).items, e.seq < (runAdds ops).nextSeq := by
  have hfold : ∀ (ops : List (Int × Nat)) (b : MiddlewareBucket),
      List.Pairwise mwLex b.items →
      (∀ e ∈ b.items, e.seq < b.nextSeq) →
      List.Pairwise mwLex
          (ops.foldl (fun b op => b.add op.fst op.snd) b).items
      ∧ ∀ e ∈ (ops.foldl (fun b op => b.add op.fst op.snd) b).items,
          e.seq < (ops.foldl (fun b op => b.add op.fst op.snd) b).nextSeq := by
    intro ops
    induction ops with
    | nil => intro b hp hs; exact ⟨hp, hs⟩
    | cons op ops ih =>
      intro b hp hs
      obtain ⟨hp', hs'⟩ := MiddlewareBucket_add_inv b op.fst op.snd hp hs
      exact ih _ hp' hs'
  exact hfold ops {} (List.Pairwise.nil) (by intro e he; cases he)

/-- **C8**.  For any sequence of `add` calls with arbitrary priorities and
arities, iterating the resulting stage bucket yields the middlewares in
ascending priority order and, on equal priorities, in the order they were
added: the bucket is pairwise ordered by the strict lexicographic
`(priority, insertion index)` order, and in particular sorted by
priority. -/
theorem c8_middleware_order (ops : List (Int × Nat)) :
    List.Pairwise mwLex (runAdds ops).items
    ∧ List.Sorted mwPriLe (runAdds ops).items :=
  ⟨(runAdds_inv ops).1, ((runAdds_inv ops).1).imp mwLex_priority_le⟩

theorem handleWithGroup_nodup (st : GroupsState) (key : String)
    (h : (st.groups.map Prod.fst).Nodup) :
    ((handleWithGroup st key).groups.map Prod.fst).Nodup := by
  unfold handleWithGroup
  cases hf : st.groups.find? (fun p => p.fst = key) with
  | some p => exact h
  | none =>
    dsimp only
    rw [List.map_cons]
    refine List.nodup_cons.mpr ⟨?_, h⟩
    intro hmem
    obtain ⟨p, hp, hpk⟩ := List.mem_map.mp hmem
    have := List.find?_eq_none.mp hf p hp
    simp at this
    exact this hpk

theorem onGroupFinished_nodup (st : GroupsState) (key : String) (g : Nat)
    (h : (st.groups.map Prod.fst).Nodup) :
    ((onGroupFinished st key g).groups.map Prod.fst).Nodup := by
  unfold onGroupFinished
  cases hf : st.groups.find? (fun p => p.fst = key) with
  | none => exact h
  | some p =>
    dsimp only
    by_cases hg : p.snd = g
    · rw [if_pos hg]
      exact h.sublist ((List.filter_sublist st.groups).map Prod.fst)
    · rw [if_neg hg]
      exact h

theorem runGroupOps_nodup (ops : List GroupOp) :
    ((runGroupOps ops).groups.map Prod.fst).Nodup := by
  have hfold : ∀ (ops : List GroupOp) (st : GroupsState),
      (st.groups.map Prod.fst).Nodup →
      ((ops.foldl groupStep st).groups.map Prod.fst).Nodup := by
    intro ops
    induction ops with
    | nil => intro st h; exact h
    | cons op ops ih =>
      intro st h
      refine ih _ ?_
      cases op with
      | handle key => exact handleWithGroup_nodup st key h
      | finished key g => exact onGroupFinished_nodup st key g h
  exact hfold ops {} (by simp [List.Nodup])

/-- **C9**.  The rate limiter's group map holds at most one group per key in
any reachable state (all keys distinct after any trace of create/finish
events); `_handle_with_group` creates a group only when no entry exists (an
existing entry is left untouched); and `_on_group_finished` removes an
entry only when it still points at the terminating group object, so a
replacement group created for the same key is never evicted by the old
worker's termination: with a different current group the map is completely
unchanged and the lookup still returns the replacement. -/
theorem c9_group_map (ops : List GroupOp) (st : GroupsState) (key : String)
    (g g' : Nat) :
    ((runGroupOps ops).groups.map Prod.fst).Nodup
    ∧ ((st.groups.find? (fun p => p.fst = key)).isSome = true →
        handleWithGroup st key = st)
    ∧ (st.groups.find? (fun p => p.fst = key) = some (key, g') → g' ≠ g →
        onGroupFinished st key g = st
        ∧ (onGroupFinished st key g).groups.find? (fun p => p.fst = key)
            = some (key, g')) := by
  refine ⟨runGroupOps_nodup ops, ?_, ?_⟩
  · intro h
    unfold handleWithGroup
    cases hf : st.groups.find? (fun p => p.fst = key) with
    | some p => rfl
    | none => rw [hf] at h; simp at h
  · intro hf hne
    have heq : onGroupFinished st key g = st := by
      unfold onGroupFinished
      rw [hf]
      dsimp only
      rw [if_neg hne]
    exact ⟨heq, by rw [heq, hf]⟩

/-- **C9** witness: with the concrete map holding group 0 for key `"a"`, a
second `handle` for `"a"` leaves the map untouched, and the termination
callback of an old group 1 neither removes nor replaces the entry. -/
theorem c9_group_map_witness :
    handleWithGroup ⟨[("a", 0)], 1⟩ "a" = ⟨[("a", 0)], 1⟩
    ∧ onGroupFinished ⟨[("a", 0)], 1⟩ "a" 1 = ⟨[("a", 0)], 1⟩
    ∧ (onGroupFinished ⟨[("a", 0)], 1⟩ "a" 1).groups.find?
        (fun p => p.fst = "a") = some ("a", 0) :=
  ⟨(c9_group_map [] ⟨[("a", 0)], 1⟩ "a" 1 0).2.1 (by decide),
   ((c9_group_map [] ⟨[("a", 0)], 1⟩ "a" 1 0).2.2 (by decide) (by decide)).1,
   ((c9_group_map [] ⟨[("a", 0)], 1⟩ "a" 1 0).2.2 (by decide) (by decide)).2⟩

theorem runRespOps_spec (u : Nat → String) (decode parse : String → String) :
    ∀ (ops : List RespOp) (s : RespState),
      (s = ⟨none, 0⟩ ∨ s = ⟨some (u 0), 1⟩) →
      ((runRespOps u decode parse s ops).1 = ⟨none, 0⟩ ∨
        (runRespOps u decode parse s ops).1 = ⟨some (u 0), 1⟩)
      ∧ (runRespOps u decode parse s ops).2 =
          ops.map (expectedResp u decode parse) := by
  intro ops
  induction ops with
  | nil =>
    intro s hs
    exact ⟨hs, rfl⟩
  | cons op ops ih =>
    intro s hs
    obtain ⟨h1, h2⟩ := ih ⟨some (u 0), 1⟩ (Or.inr rfl)
    rcases hs with rfl | rfl <;> cases op <;>
      simpa [runRespOps, readStep, textStep, jsonStep, expectedResp] using
        ⟨h1, h2⟩

/-- **C10**.  Across any sequence of `read`, `text` and `json` calls on one
response, the underlying body-read callable is invoked at most once; every
`read` returns the identical first-read bytes `u 0`, and every `text`/`json`
result is the fixed decode/parse function applied to those same bytes, so
`read` is idempotent and `text`/`json` are deterministic functions of the
first read's result. -/
theorem c10_response_read_cached (u : Nat → String)
    (decode parse : String → String) (ops : List RespOp) :
    (runRespOps u decode parse ⟨none, 0⟩ ops).1.calls ≤ 1
    ∧ (runRespOps u decode parse ⟨none, 0⟩ ops).2 =
        ops.map (expectedResp u decode parse) := by
  obtain ⟨h1, h2⟩ := runRespOps_spec u decode parse ops ⟨none, 0⟩ (Or.inl rfl)
  refine ⟨?_, h2⟩
  rcases h1 with h | h <;> rw [h] <;> simp
